import Mathlib

/-!
Verification development for the FinSmart AI inference subsystem
(`ai/app/services/`): merchant matching, anomaly scoring, category
classification, feature extraction and artifact management.

Conventions of the shallow embedding:
* Python floats are modelled as exact rationals (`ℚ`).  Library numeric
  routines that are not rational-exact (square root in `np.linalg.norm` /
  `np.std`, `log1p`, `sin`, float formatting, ISO-8601 date parsing) are
  abstracted as parameters, collected in `PyOps`; theorems quantify over
  them and concrete witnesses instantiate them with exact rational
  versions (`ratSqrt` is the exact square root on perfect-square
  rationals).
* External ML models (sentence-transformers, FAISS, sklearn estimators)
  are injected dependencies in the source and stay abstract here: an
  embedding model is a function `String → List ℚ`, a fitted
  IsolationForest is its decision function `List ℚ → ℚ`, a fitted
  classifier is its probability output `List ℚ`.
* `merchants.py` has a FAISS branch and a numpy fallback branch; the
  fallback (`_using_faiss = False`, lines 143-155) is fully in-source and
  is the branch modelled here.
* pandas missing values (`NaN`) are modelled with `Option`.
-/

attribute [local semireducible] Rat.add Rat.mul Rat.inv Rat.sub Rat.ofScientific

deriving instance DecidableEq for Except

namespace FinSmart

/-! ## Generic helpers -/

/-- Maximal runs of characters with equal `p`-value (used to model the
word/non-word segmentation that the `\b`-anchored regexes in
`normalize_merchant_text` operate on). -/
def chunkBy (p : Char → Bool) : List Char → List (List Char)
  | [] => []
  | [c] => [[c]]
  | c :: d :: rest =>
    match chunkBy p (d :: rest) with
    | [] => [[c]]
    | r :: rs => if p c = p d then (c :: r) :: rs else [c] :: r :: rs

/-- ASCII lower-casing of one character (`str.lower` restricted to the
ASCII inputs in scope for this model). -/
def asciiLower (c : Char) : Char :=
  if 'A' ≤ c && c ≤ 'Z' then Char.ofNat (c.toNat + 32) else c

def isAsciiLowerAlpha (c : Char) : Bool := 'a' ≤ c && c ≤ 'z'

def isAsciiDigit (c : Char) : Bool := '0' ≤ c && c ≤ '9'

/-- Python `\s` (space, tab, newline, carriage return, vertical tab,
form feed). -/
def isPySpace (c : Char) : Bool :=
  c = ' ' || c = '\t' || c = '\n' || c = '\r' || c = '\x0b' || c = '\x0c'

/-- Python `\w` on text that has already been lower-cased (ASCII scope). -/
def isWordChar (c : Char) : Bool :=
  isAsciiLowerAlpha c || isAsciiDigit c || c = '_'

/-- Lexicographic `≤` on code-point sequences: Python's string
comparison, used by `sorted()` on version names. -/
def natLexLe : List ℕ → List ℕ → Bool
  | [], _ => true
  | _ :: _, [] => false
  | a :: as, b :: bs => a < b || (a == b && natLexLe as bs)

def strKey (s : String) : List ℕ := s.data.map Char.toNat

/-- Python string `≤` (code-point lexicographic). -/
def pyStrLe (a b : String) : Prop := natLexLe (strKey a) (strKey b) = true

instance : DecidableRel pyStrLe := fun a b => by
  unfold pyStrLe; infer_instance

theorem natLexLe_total : ∀ a b : List ℕ, natLexLe a b = true ∨ natLexLe b a = true
  | [], _ => Or.inl rfl
  | _ :: _, [] => Or.inr rfl
  | a :: as, b :: bs => by
    rcases lt_trichotomy a b with h | h | h
    · left; simp [natLexLe, h]
    · subst h
      rcases natLexLe_total as bs with ih | ih
      · left; simp [natLexLe, ih]
      · right; simp [natLexLe, ih]
    · right; simp [natLexLe, h]

theorem natLexLe_trans : ∀ a b c : List ℕ,
    natLexLe a b = true → natLexLe b c = true → natLexLe a c = true
  | [], _, _ => fun _ _ => rfl
  | _ :: _, [], _ => fun h _ => by simp [natLexLe] at h
  | _ :: _, _ :: _, [] => fun _ h => by simp [natLexLe] at h
  | a :: as, b :: bs, c :: cs => by
    intro h1 h2
    simp only [natLexLe, Bool.or_eq_true, Bool.and_eq_true, decide_eq_true_eq,
      beq_iff_eq] at h1 h2 ⊢
    rcases h1 with h1 | ⟨e1, t1⟩
    · rcases h2 with h2 | ⟨e2, _⟩
      · exact Or.inl (h1.trans h2)
      · exact Or.inl (e2 ▸ h1)
    · rcases h2 with h2 | ⟨e2, t2⟩
      · exact Or.inl (e1 ▸ h2)
      · exact Or.inr ⟨e1.trans e2, natLexLe_trans as bs cs t1 t2⟩

theorem natLexLe_antisymm : ∀ a b : List ℕ,
    natLexLe a b = true → natLexLe b a = true → a = b
  | [], [] => fun _ _ => rfl
  | [], _ :: _ => fun _ h => by simp [natLexLe] at h
  | _ :: _, [] => fun h _ => by simp [natLexLe] at h
  | a :: as, b :: bs => by
    intro h1 h2
    simp only [natLexLe, Bool.or_eq_true, Bool.and_eq_true, decide_eq_true_eq,
      beq_iff_eq] at h1 h2
    rcases h1 with h1 | ⟨e1, t1⟩
    · rcases h2 with h2 | ⟨e2, _⟩
      · exact absurd (h1.trans h2) (lt_irrefl a)
      · exact absurd h1 (e2 ▸ lt_irrefl a)
    · rcases h2 with h2 | ⟨_, t2⟩
      · exact absurd h2 (e1 ▸ lt_irrefl a)
      · exact e1 ▸ congrArg (a :: ·) (natLexLe_antisymm as bs t1 t2)

instance : IsTotal String pyStrLe where
  total a b := natLexLe_total (strKey a) (strKey b)

instance : IsTrans String pyStrLe where
  trans a b c := natLexLe_trans (strKey a) (strKey b) (strKey c)

theorem strKey_injective : Function.Injective strKey := by
  intro a b h
  unfold strKey at h
  have hdata : a.data = b.data :=
    List.map_injective_iff.mpr (fun c d hc => Char.ext (UInt32.toNat.inj hc)) h
  cases a; cases b
  simp only at hdata
  exact congrArg String.mk hdata

instance : IsAntisymm String pyStrLe where
  antisymm a b h1 h2 :=
    strKey_injective (natLexLe_antisymm (strKey a) (strKey b) h1 h2)

/-- Python list slice `l[:-keep]`: empty for `keep = 0`, otherwise all
but the last `keep` elements. -/
def pyDropLast {α : Type} (keep : ℕ) (l : List α) : List α :=
  if keep = 0 then [] else l.take (l.length - keep)

/-- Minimum of a list of naturals (`numpy .min()` of a nonempty count
vector; 0 on the empty list, which training rules out). -/
def listMin : List ℕ → ℕ
  | [] => 0
  | [a] => a
  | a :: b :: rest => min a (listMin (b :: rest))

/-! ## argsort

`np.argsort` (stable ascending sort of indices) followed by `[::-1]`, the
pattern used both by `MerchantService.search` (numpy fallback) and
`CategoryService.predict`. -/

/-- The total order on indices realised by a stable ascending argsort:
by value, then by index on ties. -/
def argKeyLe (xs : List ℚ) (i j : ℕ) : Prop :=
  xs.getD i 0 < xs.getD j 0 ∨ (xs.getD i 0 = xs.getD j 0 ∧ i ≤ j)

instance (xs : List ℚ) : DecidableRel (argKeyLe xs) := fun i j => by
  unfold argKeyLe; infer_instance

instance (xs : List ℚ) : IsTotal ℕ (argKeyLe xs) where
  total i j := by
    unfold argKeyLe
    rcases lt_trichotomy (xs.getD i 0) (xs.getD j 0) with h | h | h
    · exact Or.inl (Or.inl h)
    · rcases Nat.le_total i j with hij | hij
      · exact Or.inl (Or.inr ⟨h, hij⟩)
      · exact Or.inr (Or.inr ⟨h.symm, hij⟩)
    · exact Or.inr (Or.inl h)

instance (xs : List ℚ) : IsTrans ℕ (argKeyLe xs) where
  trans i j k hij hjk := by
    unfold argKeyLe at *
    rcases hij with h1 | ⟨e1, l1⟩
    · rcases hjk with h2 | ⟨e2, _⟩
      · exact Or.inl (h1.trans h2)
      · exact Or.inl (e2 ▸ h1)
    · rcases hjk with h2 | ⟨e2, l2⟩
      · exact Or.inl (e1 ▸ h2)
      · exact Or.inr ⟨e1.trans e2, l1.trans l2⟩

/-- `np.argsort(xs)`: indices sorted ascending by value, stable. -/
def argsortAsc (xs : List ℚ) : List ℕ :=
  List.insertionSort (argKeyLe xs) (List.range xs.length)

/-- `np.argsort(xs)[::-1]`: descending by value; a tie of values keeps
the *reversed* stable order, i.e. descending index. -/
def argsortDesc (xs : List ℚ) : List ℕ := (argsortAsc xs).reverse

theorem argsortDesc_pairwise (xs : List ℚ) :
    (argsortDesc xs).Pairwise (fun i j => argKeyLe xs j i) := by
  unfold argsortDesc
  rw [List.pairwise_reverse]
  exact List.sorted_insertionSort (argKeyLe xs) (List.range xs.length)

theorem argsortDesc_perm (xs : List ℚ) :
    List.Perm (argsortDesc xs) (List.range xs.length) := by
  unfold argsortDesc
  exact (List.reverse_perm _).trans (List.perm_insertionSort _ _)

theorem argsortDesc_mem {xs : List ℚ} {i : ℕ} (h : i ∈ argsortDesc xs) :
    i < xs.length := by
  have := (argsortDesc_perm xs).mem_iff.mp h
  simpa [List.mem_range] using this

/-! ## Text normalization (`embeddings.py` / `features.py`) -/

/-- Delete every maximal word run equal to one of `ws` — the effect of
`re.sub(r"\b(w1|w2|...)\b", "", text)` when every alternative consists of
word characters only (as all suffix alternatives do). -/
def removeSuffixWords (ws : List String) (cs : List Char) : List Char :=
  ((chunkBy isWordChar cs).map fun r =>
    if isWordChar (r.headD ' ') && ws.contains (String.mk r) then [] else r).flatten

/-- First suffix group of `normalize_merchant_text`. -/
def suffixWords1 : List String :=
  ["ltd", "limited", "inc", "incorporated", "llc", "plc", "corp",
   "corporation", "co", "company"]

/-- Second suffix group. -/
def suffixWords2 : List String :=
  ["uk", "usa", "us", "eu", "int", "intl", "international"]

/-- Third suffix group; the regex `services?` matches both spellings. -/
def suffixWords3 : List String :=
  ["online", "store", "shop", "retail", "service", "services"]

/-- The regex substitution `[^a-z0-9\s]` → space. -/
def replaceSpecialChars (cs : List Char) : List Char :=
  cs.map fun c =>
    if isAsciiLowerAlpha c || isAsciiDigit c || isPySpace c then c else ' '

/-- Whitespace-separated tokens (`str.split()` with no argument:
no empty tokens). -/
def wsTokens (cs : List Char) : List (List Char) :=
  (chunkBy (fun c => !(isPySpace c)) cs).filter fun r => !(isPySpace (r.headD ' '))

def isAllDigits (r : List Char) : Bool := r.all isAsciiDigit

/-- `normalize_merchant_text` (embeddings.py lines 207-241): lower-case,
strip business suffix words, replace special characters with spaces,
remove standalone digit runs (`\b\d+\b`), collapse whitespace and strip.
After the special-character pass the only separators are whitespace, so
digit-run removal plus `" ".join(text.split())` equals dropping all-digit
tokens and joining the rest. -/
def normalize_merchant_text (text : String) : String :=
  if text = "" then ""
  else
    let cs := text.data.map asciiLower
    let cs := removeSuffixWords suffixWords1 cs
    let cs := removeSuffixWords suffixWords2 cs
    let cs := removeSuffixWords suffixWords3 cs
    let cs := replaceSpecialChars cs
    let toks := (wsTokens cs).filter fun r => !(isAllDigits r)
    String.intercalate " " (toks.map String.mk)

/-- `combined.split()` on an already-normalized string. -/
def pySplitWs (s : String) : List String := (wsTokens s.data).map String.mk

/-- `FeatureExtractor._clean_text` / `EmbeddingService._preprocess`:
lower-case, `[^a-z0-9\s]` → space, collapse whitespace. -/
def clean_text (s : String) : String :=
  String.intercalate " " ((wsTokens (replaceSpecialChars (s.data.map asciiLower))).map String.mk)

/-! ## Abstracted numeric/library routines -/

/-- Result of `datetime.fromisoformat`: the fields the services read. -/
structure PyDate where
  day : ℕ
  month : ℕ
  weekday : ℕ
deriving Repr, DecidableEq

/-- Library routines with no exact rational counterpart, abstracted as
parameters of the model: `sqrt` (inside `np.linalg.norm` / `np.std`),
`np.log1p`, `sin(2π·month/12)`, Python `round(x, 2)`, float formatting
`:.2f`, and `datetime.fromisoformat`. -/
structure PyOps where
  sqrt : ℚ → ℚ
  log1p : ℚ → ℚ
  monthSin : ℕ → ℚ
  round2 : ℚ → ℚ
  fmt2 : ℚ → String
  parseDate : String → Option PyDate

/-- Floor integer square root by descending scan (kernel-computable on
the small inputs of concrete witnesses). -/
def natSqrtBelow : ℕ → ℕ → ℕ
  | _, 0 => 0
  | n, k + 1 => if (k + 1) * (k + 1) ≤ n then k + 1 else natSqrtBelow n k

def natSqrtFuel (n : ℕ) : ℕ := natSqrtBelow n n

/-- Exact square root on perfect-square rationals (witness instantiation
of the abstract `sqrt`). -/
def ratSqrt (q : ℚ) : ℚ := (natSqrtFuel q.num.toNat : ℚ) / (natSqrtFuel q.den : ℚ)

/-- Concrete `PyOps` used by witnesses and counterexamples; `sqrt` is
exact on the perfect squares they produce. -/
def ratOps : PyOps where
  sqrt := ratSqrt
  log1p := fun q => q
  monthSin := fun _ => 0
  round2 := fun q => q
  fmt2 := fun _ => ""
  parseDate := fun _ => none

/-! ## Input records (§6 input record schema) -/

/-- One transaction row. Optional fields are pandas-`NaN`-able columns. -/
structure Record where
  id : Option String := none
  merchant : Option String := none
  description : Option String := none
  amount : ℚ := 0
  direction : String := "DEBIT"
  date : Option String := none
  category : Option String := none
deriving Repr, DecidableEq

/-- Python truthiness of an optional string (`if category and ...`). -/
def truthy : Option String → Bool
  | some s => s ≠ ""
  | none => false

/-! ## MerchantService (`merchants.py`), numpy fallback branch -/

/-- One search hit: `{canonical, score, matched_tokens}`. -/
structure MerchantCandidate where
  canonical : String
  score : ℚ
  matchedTokens : List String
deriving Repr, DecidableEq

/-- The state `build_index` / `load_state` leave behind:
`canonical_merchants` and the `N×D` embedding matrix (`None` when no
index was built). -/
structure MerchantState where
  canonicalMerchants : List String
  embeddings : Option (List (List ℚ))
deriving Repr, DecidableEq

/-- Inner product of two rows (`@` on vectors). -/
def dot (u v : List ℚ) : ℚ := (List.zipWith (fun a b => a * b) u v).sum

/-- `MerchantService.build_index`: normalize each canonical name, embed
it (one row per name); an empty canonical list leaves no embeddings. -/
def build_index (embed : String → List ℚ) (canonical : List String) :
    MerchantState :=
  if canonical = [] then { canonicalMerchants := canonical, embeddings := none }
  else
    { canonicalMerchants := canonical,
      embeddings := some (canonical.map fun m => embed (normalize_merchant_text m)) }

/-- Query plus truthy hints, each normalized, joined by single spaces. -/
def combineQuery (query : String) (hintMerchant hintDescription : Option String) :
    String :=
  let c := normalize_merchant_text query
  let c := match hintMerchant with
    | some h => if h ≠ "" then c ++ " " ++ normalize_merchant_text h else c
    | none => c
  match hintDescription with
  | some h => if h ≠ "" then c ++ " " ++ normalize_merchant_text h else c
  | none => c

/-- Query-side L2 normalization: divide by the norm only when it is
positive (`if query_norm > 0`). -/
def l2normalizeQuery (sq : ℚ → ℚ) (v : List ℚ) : List ℚ :=
  let n := sq (dot v v)
  if 0 < n then v.map (fun x => x / n) else v

/-- Row-side L2 normalization: zero norms are replaced by 1 before the
division (`norms[norms == 0] = 1`). -/
def normalizeRows (sq : ℚ → ℚ) (rows : List (List ℚ)) : List (List ℚ) :=
  rows.map fun r =>
    let n := sq (dot r r)
    let n := if n = 0 then 1 else n
    r.map (fun x => x / n)

/-- The cosine-similarity vector of the numpy fallback:
`(normalized @ query_embedding.T).flatten()`. -/
def searchSims (sq : ℚ → ℚ) (embed : String → List ℚ) (st : MerchantState)
    (query : String) (hintMerchant hintDescription : Option String) : List ℚ :=
  match st.embeddings with
  | none => []
  | some rows =>
    let q := l2normalizeQuery sq (embed (combineQuery query hintMerchant hintDescription))
    (normalizeRows sq rows).map fun r => dot r q

/-- `MerchantService.search` (lines 95-180), numpy fallback: empty
result without an index; otherwise top-k indices by descending
similarity (`np.argsort(similarities)[::-1][:top_k]`), each hit carrying
the similarity clamped to `[0,1]` and the token intersection.  The
`idx < 0` skip is FAISS-specific (numpy indices are naturals) and is a
no-op here.  Python's set intersection is modelled in first-occurrence
order of the query tokens. -/
def search (sq : ℚ → ℚ) (embed : String → List ℚ) (st : MerchantState)
    (query : String) (hintMerchant hintDescription : Option String)
    (topK : ℕ) : List MerchantCandidate :=
  if st.canonicalMerchants = [] || st.embeddings.isNone then []
  else
    let combined := combineQuery query hintMerchant hintDescription
    let sims := searchSims sq embed st query hintMerchant hintDescription
    let idxs := (argsortDesc sims).take topK
    let queryTokens := pySplitWs combined
    idxs.map fun i =>
      let canonical := st.canonicalMerchants.getD i ""
      let canonicalTokens := pySplitWs (normalize_merchant_text canonical)
      { canonical := canonical
        score := max 0 (min 1 (sims.getD i 0))
        matchedTokens := queryTokens.dedup.filter fun t => canonicalTokens.contains t }

/-- Output of `MerchantService.normalise` with the `why` record
flattened into `matchedTokens`/`notes`. -/
structure NormaliseResult where
  canonical : String
  score : ℚ
  candidates : List (String × ℚ)
  matchedTokens : List String
  notes : String
deriving Repr, DecidableEq

/-- `normalize_merchant_text(raw) or raw` — Python `or` falls back on
the empty (falsy) string. -/
def normalizedRawOrRaw (raw : String) : String :=
  if normalize_merchant_text raw = "" then raw else normalize_merchant_text raw

/-- `MerchantService.normalise` (lines 182-242): search with `top_k=5`;
no candidates → normalized raw with score 0; best below `min_score` →
normalized raw but the best score and the top-3 candidates are still
reported; otherwise adopt the best match. -/
def normalise (ops : PyOps) (sq : ℚ → ℚ) (embed : String → List ℚ)
    (st : MerchantState) (raw : String)
    (hintMerchant hintDescription : Option String) (minScore : ℚ) :
    NormaliseResult :=
  match search sq embed st raw hintMerchant hintDescription 5 with
  | [] =>
    { canonical := normalizedRawOrRaw raw
      score := 0
      candidates := []
      matchedTokens := []
      notes := "No canonical merchants in index" }
  | best :: rest =>
    if best.score < minScore then
      { canonical := normalizedRawOrRaw raw
        score := best.score
        candidates := ((best :: rest).take 3).map fun c => (c.canonical, c.score)
        matchedTokens := best.matchedTokens
        notes := "Best match below threshold (" ++ ops.fmt2 best.score ++
          " < " ++ ops.fmt2 minScore ++ ")" }
    else
      { canonical := best.canonical
        score := best.score
        candidates := ((best :: rest).take 3).map fun c => (c.canonical, c.score)
        matchedTokens := best.matchedTokens
        notes := "Matched with score " ++ ops.fmt2 best.score }

/-! ## AnomalyService (`anomalies.py`) -/

/-- One per-group baseline entry `{mean, std, count}`. -/
structure StatEntry where
  mean : ℚ
  std : ℚ
  count : ℕ
deriving Repr, DecidableEq

/-- The global baseline `{mean, std, median}`. -/
structure GlobalStats where
  mean : ℚ
  std : ℚ
  median : ℚ
deriving Repr, DecidableEq

/-- The three baseline tables of `_compute_statistics`. -/
structure AnomalyStats where
  globalStats : GlobalStats
  categoryStats : List (String × StatEntry)
  merchantStats : List (String × StatEntry)
deriving Repr, DecidableEq

/-- `np.mean`. -/
def npMean (xs : List ℚ) : ℚ := xs.sum / (xs.length : ℚ)

/-- Population variance (`np.std` squares this before the square root;
`ddof = 0`). -/
def popVar (xs : List ℚ) : ℚ :=
  let mu := npMean xs
  ((xs.map fun x => (x - mu) * (x - mu)).sum) / (xs.length : ℚ)

/-- `np.std` with the square root abstracted. -/
def popStd (sq : ℚ → ℚ) (xs : List ℚ) : ℚ := sq (popVar xs)

/-- Python `x or 1.0`: replaces (only) an exact zero by 1. -/
def orOne (x : ℚ) : ℚ := if x = 0 then 1 else x

/-- `np.median`: middle of the sorted list, or the average of the two
middles (0 for the empty list, which training rules out). -/
def npMedian (xs : List ℚ) : ℚ :=
  let s := List.insertionSort (fun a b : ℚ => a ≤ b) xs
  let n := s.length
  if n = 0 then 0
  else if n % 2 = 1 then s.getD (n / 2) 0
  else (s.getD (n / 2 - 1) 0 + s.getD (n / 2) 0) / 2

/-- Distinct group keys, in first-appearance order (pandas `groupby`
iterates keys sorted, but the result is stored in a dict, so only the
key→entry mapping matters; `NaN` keys are skipped). -/
def groupKeys (f : Record → Option String) (rs : List Record) : List String :=
  (rs.filterMap f).dedup

/-- The rows of one group. -/
def groupOf (f : Record → Option String) (rs : List Record) (k : String) :
    List Record :=
  rs.filter fun r => f r == some k

/-- A `{mean, std, count}` entry for one group of amounts. -/
def mkStatEntry (sq : ℚ → ℚ) (amounts : List ℚ) (count : ℕ) : StatEntry :=
  { mean := npMean amounts, std := orOne (popStd sq amounts), count := count }

/-- The per-group loop of `_compute_statistics`, shared verbatim by the
category table and the merchant table: one entry per group of size ≥ 3. -/
def groupStatsTable (sq : ℚ → ℚ) (f : Record → Option String)
    (df : List Record) : List (String × StatEntry) :=
  (groupKeys f df).filterMap fun k =>
    let g := groupOf f df k
    if 3 ≤ g.length then
      some (k, mkStatEntry sq (g.map fun r => r.amount) g.length)
    else none

/-- `AnomalyService._compute_statistics` (lines 105-142): global
`{mean, std or 1.0, median}` plus per-category and per-merchant entries
for groups of size ≥ 3. -/
def computeStatistics (sq : ℚ → ℚ) (df : List Record) : AnomalyStats :=
  let amounts := df.map (fun r => r.amount)
  { globalStats :=
      { mean := npMean amounts
        std := orOne (popStd sq amounts)
        median := npMedian amounts }
    categoryStats := groupStatsTable sq (fun r => r.category) df
    merchantStats := groupStatsTable sq (fun r => r.merchant) df }

/-- `AnomalyService._prepare_features` for one row: `log1p(amount)`,
z-score vs. the global baseline, z-score vs. the category baseline
(0 if unavailable), day-of-month / 31 (0 if absent or unparseable). -/
def prepare_features_row (ops : PyOps) (st : AnomalyStats) (r : Record) :
    List ℚ :=
  let zCategory := match r.category with
    | some c =>
      match st.categoryStats.lookup c with
      | some e => (r.amount - e.mean) / e.std
      | none => 0
    | none => 0
  let day : ℚ := match r.date with
    | some d =>
      match ops.parseDate d with
      | some dt => (dt.day : ℚ) / 31
      | none => 0
    | none => 0
  [ops.log1p r.amount,
   (r.amount - st.globalStats.mean) / st.globalStats.std,
   zCategory,
   day]

/-- The in-memory result of `AnomalyService.train`: baseline tables and
the feature matrix handed to `IsolationForest.fit` (the fitted forest
itself is an external sklearn object; it re-enters the model as the
`decisionFn` parameter of scoring). -/
structure AnomalyModelState where
  stats : AnomalyStats
  features : List (List ℚ)
  trained : Bool
deriving Repr, DecidableEq

/-- The `DEBIT` filter of `AnomalyService.train`
(`df[df.get("direction", "DEBIT") == "DEBIT"]`). -/
def debitRows (df : List Record) : List Record :=
  df.filter fun r => r.direction == "DEBIT"

/-- `AnomalyService.train` (lines 49-103): keep `DEBIT` rows, require at
least 10 of them, compute the baselines and the training features. -/
def anomalyTrain (ops : PyOps) (df : List Record) :
    Except String AnomalyModelState :=
  if (debitRows df).length < 10 then
    Except.error "Need at least 10 DEBIT transactions for training"
  else
    let stats := computeStatistics ops.sqrt (debitRows df)
    Except.ok
      { stats := stats
        features := (debitRows df).map (prepare_features_row ops stats)
        trained := true }

/-- Projection used by concrete refutations: the stored global std. -/
def anomalyTrainGlobalStd (ops : PyOps) (df : List Record) : Option ℚ :=
  match anomalyTrain ops df with
  | Except.ok st => some st.stats.globalStats.std
  | Except.error _ => none

/-- One scored row `{id, score, label, why{baseline, residual, notes}}`. -/
structure AnomalyScore where
  id : String
  score : ℚ
  label : String
  baseline : ℚ
  residual : ℚ
  notes : String
deriving Repr, DecidableEq

/-- `AnomalyService._compute_residual`: category baseline if present,
else merchant, else global; `residual = amount - baseline`.  Python
truthiness (`if category and ...`) skips empty strings. -/
def computeResidual (st : AnomalyStats) (amount : ℚ)
    (category merchant : Option String) : ℚ × ℚ :=
  let catEntry := if truthy category then st.categoryStats.lookup (category.getD "") else none
  let merchEntry := if truthy merchant then st.merchantStats.lookup (merchant.getD "") else none
  let baseline := match catEntry with
    | some e => e.mean
    | none =>
      match merchEntry with
      | some e => e.mean
      | none => st.globalStats.mean
  (baseline, amount - baseline)

/-- `AnomalyService._build_notes`: severity phrase, residual-magnitude
phrase when `|residual| > 100`, and the baseline-provenance phrase. -/
def buildNotes (ops : PyOps) (st : AnomalyStats) (score residual : ℚ)
    (category merchant : Option String) : String :=
  let severity :=
    if 4/5 ≤ score then "Highly unusual transaction"
    else if 3/5 ≤ score then "Moderately unusual transaction"
    else "Transaction appears normal"
  let residualPart :=
    if 100 < |residual| then
      ["Amount is " ++ ops.fmt2 |residual| ++ " " ++
        (if 0 < residual then "above" else "below") ++ " baseline"]
    else []
  let catEntry := if truthy category then st.categoryStats.lookup (category.getD "") else none
  let merchEntry := if truthy merchant then st.merchantStats.lookup (merchant.getD "") else none
  let provenance := match catEntry with
    | some e =>
      "Based on " ++ toString e.count ++ " similar " ++ category.getD "" ++
        " transactions"
    | none =>
      match merchEntry with
      | some e =>
        "Based on " ++ toString e.count ++ " transactions from " ++
          merchant.getD ""
      | none => "Using global baseline (limited category/merchant data)"
  String.intercalate "; " ([severity] ++ residualPart ++ [provenance])

/-- The per-row body of `AnomalyService.score` (lines 207-277):
short-circuit for ignored ids and `CREDIT` rows; otherwise run the
IsolationForest decision function (`raw = -decision_function(X)`), remap
with `clip((raw + 0.5) / 1.0, 0, 1)` and classify against the 0.8 / 0.6
thresholds. -/
def scoreRow (decisionFn : List ℚ → ℚ) (ops : PyOps) (st : AnomalyStats)
    (ignoreIds : List String) (r : Record) : AnomalyScore :=
  let txnId := r.id.getD ""
  if ignoreIds.contains txnId then
    { id := txnId, score := 0, label := "NORMAL", baseline := 0, residual := 0,
      notes := "Skipped (in ignore list)" }
  else if r.direction == "CREDIT" then
    { id := txnId, score := 0, label := "NORMAL", baseline := 0, residual := 0,
      notes := "Credit transactions not scored" }
  else
    let x := prepare_features_row ops st r
    let raw := -(decisionFn x)
    let score := max 0 (min 1 ((raw + 1/2) / 1))
    let br := computeResidual st r.amount r.category r.merchant
    let label :=
      if 4/5 ≤ score then "SEVERE"
      else if 3/5 ≤ score then "SUSPICIOUS"
      else "NORMAL"
    { id := txnId, score := score, label := label,
      baseline := ops.round2 br.1, residual := ops.round2 br.2,
      notes := buildNotes ops st score br.2 r.category r.merchant }

/-- `AnomalyService.score`: `NotTrained` guard, then the per-row loop. -/
def anomalyScore (decisionFn : List ℚ → ℚ) (ops : PyOps)
    (m : AnomalyModelState) (df : List Record) (ignoreIds : List String) :
    Except String (List AnomalyScore) :=
  if !m.trained then
    Except.error "Model not trained. Run scripts/train_all.py first."
  else
    Except.ok (df.map (scoreRow decisionFn ops m.stats ignoreIds))

/-! ## CategoryService (`categoriser.py`) -/

/-- One `{category, probability}` item of the `top` list. -/
structure TopPred where
  category : String
  prob : ℚ
deriving Repr, DecidableEq

/-- One prediction `{top, chosen, confidence}` (the `why` explanation is
computed from the abstract sklearn model's coefficients and is outside
the modelled fragment). -/
structure Prediction where
  top : List TopPred
  chosen : String
  confidence : ℚ
deriving Repr, DecidableEq

/-- The per-record body of `CategoryService.predict` (lines 166-191),
given the probability row `predict_proba` returned for the record:
`top_indices = np.argsort(proba)[::-1][:top_k]`, `chosen`/`confidence`
from `top_indices[0]`. -/
def predictRow (proba : List ℚ) (classes : List String) (topK : ℕ) :
    Prediction :=
  let topIndices := (argsortDesc proba).take topK
  let topPreds := topIndices.map fun i =>
    { category := classes.getD i "", prob := proba.getD i 0 : TopPred }
  let chosenIdx := topIndices.headD 0
  { top := topPreds
    chosen := classes.getD chosenIdx ""
    confidence := proba.getD chosenIdx 0 }

/-- `CategoryService.predict` over a batch, given the abstract model's
probability matrix (one row per record). -/
def predict (probas : List (List ℚ)) (classes : List String) (topK : ℕ) :
    List Prediction :=
  probas.map fun proba => predictRow proba classes topK

/-- The labeled rows (`df.dropna(subset=[category_col])`). -/
def labeledRows (df : List Record) : List Record :=
  df.filter fun r => r.category.isSome

/-- The label column of the labeled rows. -/
def labelList (df : List Record) : List String :=
  (labeledRows df).filterMap fun r => r.category

/-- The distinct classes (`LabelEncoder.classes_` up to order). -/
def classList (df : List Record) : List String := (labelList df).dedup

/-- Per-class sample counts (`np.unique(y, return_counts=True)`). -/
def classCounts (df : List Record) : List ℕ :=
  (classList df).map fun c => (labelList df).count c

/-- `counts.min()`. -/
def minClassCount (df : List Record) : ℕ := listMin (classCounts df)

/-- The calibration-relevant outcome of `CategoryService.train`. -/
structure CategoryTrainInfo where
  nSamples : ℕ
  nClasses : ℕ
  minCount : ℕ
  calibrated : Bool
  cvFolds : Option ℕ
deriving Repr, DecidableEq

/-- `CategoryService.train` (lines 52-138): drop unlabeled rows, require
at least 10, and decide the calibration path:
`use_calibration and len(df) >= 50 and min_samples_per_class >= 5`, with
`cv = min(5, min_samples_per_class)`.  The sklearn estimators themselves
(LogisticRegression, CalibratedClassifierCV, the cross-validated
accuracy) are external and abstracted away. -/
def categoryTrain (df : List Record) (useCalibration : Bool) :
    Except String CategoryTrainInfo :=
  let labeled := labeledRows df
  if labeled.length < 10 then
    Except.error "Need at least 10 samples for training"
  else
    let calibrated :=
      useCalibration && decide (50 ≤ labeled.length) &&
        decide (5 ≤ minClassCount df)
    Except.ok
      { nSamples := labeled.length
        nClasses := (classList df).length
        minCount := minClassCount df
        calibrated := calibrated
        cvFolds := if calibrated then some (min 5 (minClassCount df)) else none }

/-- Projection used by concrete witnesses: the calibration flag. -/
def categoryTrainCalibrated (df : List Record) (useCalibration : Bool) :
    Option Bool :=
  match categoryTrain df useCalibration with
  | Except.ok info => some info.calibrated
  | Except.error _ => none

/-! ## FeatureExtractor (`features.py`) -/

/-- `FeatureExtractor._combine_text` for one row: join the present
merchant/description fields, then clean. -/
def combine_text_row (r : Record) : String :=
  let parts :=
    (match r.merchant with | some m => [m] | none => []) ++
    (match r.description with | some d => [d] | none => [])
  clean_text (String.intercalate " " parts)

/-- `FeatureExtractor._extract_numeric` for one row: `log1p(amount)` and
the `direction == "DEBIT"` indicator. -/
def numericRow (ops : PyOps) (r : Record) : List ℚ :=
  [ops.log1p r.amount, if r.direction == "DEBIT" then 1 else 0]

/-- `FeatureExtractor._extract_temporal` for one row: all-zero block for
a missing or unparseable date, else day-of-week / 6, weekend flag,
month-start flag (day ≤ 3), month-end flag (day ≥ 28), month sine. -/
def temporalRow (ops : PyOps) (r : Record) : List ℚ :=
  match r.date with
  | none => [0, 0, 0, 0, 0]
  | some d =>
    match ops.parseDate d with
    | none => [0, 0, 0, 0, 0]
    | some dt =>
      [(dt.weekday : ℚ) / 6,
       if 5 ≤ dt.weekday then 1 else 0,
       if dt.day ≤ 3 then 1 else 0,
       if 28 ≤ dt.day then 1 else 0,
       ops.monthSin dt.month]

/-- `FeatureExtractor.transform` (lines 91-128): horizontally stack the
selected blocks; the text block is included only when a fitted TF-IDF
vectorizer exists (`include_text and self._tfidf is not None`); an empty
block list raises `ValueError("No features selected")`.  The fitted
vectorizer is an external sklearn object, abstracted as the per-text
row function `tfidf`. -/
def transform (ops : PyOps) (tfidf : Option (String → List ℚ))
    (df : List Record) (includeText includeNumeric includeTemporal : Bool) :
    Except String (List (List ℚ)) :=
  let blocks :=
    (if includeText then
      match tfidf with
      | some tf => [df.map fun r => tf (combine_text_row r)]
      | none => []
     else []) ++
    (if includeNumeric then [df.map (numericRow ops)] else []) ++
    (if includeTemporal then [df.map (temporalRow ops)] else [])
  match blocks with
  | [] => Except.error "No features selected"
  | b :: bs => Except.ok (bs.foldl (fun acc blk => List.zipWith (· ++ ·) acc blk) b)

/-! ## ArtifactManager (`artifacts.py`)

The filesystem is modelled as an association list of version directories.
A stored file is either readable with some content or unreadable
(`joblib.load` / `json.load` raises); an absent file is simply not
listed.  `shutil.rmtree` is modelled as always succeeding. -/

/-- Outcome of reading one on-disk file that exists. -/
inductive FileData where
  | readable (content : String)
  | unreadable
deriving Repr, DecidableEq

/-- One `models/v<timestamp>/` directory: blobs keyed by artifact name
(`<name>.joblib`) and metadata sidecars keyed by artifact name
(`<name>.meta.json`). -/
structure VersionDir where
  blobs : List (String × FileData)
  metas : List (String × FileData)
deriving Repr, DecidableEq

/-- The `models/` base directory. -/
structure ArtifactStore where
  dirs : List (String × VersionDir)
deriving Repr, DecidableEq

/-- Python `str.startswith`, written out on the character lists so the
kernel can evaluate it. -/
def listStartsWith : List Char → List Char → Bool
  | _, [] => true
  | [], _ :: _ => false
  | c :: cs, d :: ds => c = d && listStartsWith cs ds

def pyStartsWith (s pre : String) : Bool := listStartsWith s.data pre.data

/-- `ArtifactManager._list_versions`: directory names starting with
`"v"`, sorted lexicographically (Python `sorted()` on strings). -/
def list_versions (st : ArtifactStore) : List String :=
  List.insertionSort pyStrLe ((st.dirs.map Prod.fst).filter fun n => pyStartsWith n "v")

/-- `ArtifactManager.get_latest_version`. -/
def get_latest_version (st : ArtifactStore) : Option String :=
  (list_versions st).getLast?

/-- `ArtifactManager.get_version_dir`: default to the latest version,
return the directory only if it exists. -/
def get_version_dir (st : ArtifactStore) (version : Option String) :
    Option VersionDir :=
  match (match version with | some v => some v | none => get_latest_version st) with
  | none => none
  | some name => st.dirs.lookup name

/-- `ArtifactManager.load_artifact` (lines 107-140): missing version
directory or missing blob → `(None, None)`; `joblib.load` failure is
caught → `(None, None)`; but the metadata sidecar is read *outside* the
`try`, so an unreadable sidecar propagates the exception. -/
def load_artifact (st : ArtifactStore) (name : String)
    (version : Option String) : Except String (Option String × Option String) :=
  match get_version_dir st version with
  | none => Except.ok (none, none)
  | some dir =>
    match dir.blobs.lookup name with
    | none => Except.ok (none, none)
    | some FileData.unreadable => Except.ok (none, none)
    | some (FileData.readable obj) =>
      match dir.metas.lookup name with
      | none => Except.ok (some obj, none)
      | some (FileData.readable m) => Except.ok (some obj, some m)
      | some FileData.unreadable =>
        Except.error "json.load raised while reading the metadata sidecar"

/-- `ArtifactManager.cleanup_old_versions` (lines 234-259): nothing to do
when there are at most `keep` versions; otherwise remove the directories
named by `versions[:-keep]` and return how many were removed. -/
def cleanup_old_versions (st : ArtifactStore) (keep : ℕ) :
    ℕ × ArtifactStore :=
  let versions := list_versions st
  if versions.length ≤ keep then (0, st)
  else
    let toRemove := pyDropLast keep versions
    (toRemove.length,
     { dirs := st.dirs.filter fun d => !(toRemove.contains d.fst) })

/-! ## Concrete fixtures for witnesses and counterexamples -/

/-- An embedding model mapping every text to the unit vector `[1, 0]`. -/
def embedConst : String → List ℚ := fun _ => [1, 0]

/-- An embedding model separating `"tesco"` from everything else. -/
def embedTesco : String → List ℚ := fun s => if s = "tesco" then [0, 1] else [1, 0]

def idxAB : MerchantState := build_index embedConst ["aa", "bb"]

def idxTesco : MerchantState := build_index embedTesco ["Tesco"]

def emptyIdx : MerchantState := build_index embedConst []

def recAmt (a : ℚ) : Record := { amount := a }

/-- Ten DEBIT rows: nine of amount 0 and one of amount 1; population
variance 9/100, population standard deviation exactly 3/10. -/
def df10 : List Record := (List.replicate 9 (recAmt 0)) ++ [recAmt 1]

/-- Ten DEBIT rows with a category group of three constant amounts. -/
def dfConstCat : List Record :=
  (List.replicate 3 ({ amount := 5, category := some "g" } : Record)) ++
    (List.replicate 7 (recAmt 1))

def statsTrivial : AnomalyStats :=
  { globalStats := { mean := 0, std := 1, median := 0 }
    categoryStats := []
    merchantStats := [] }

def stTrained : AnomalyModelState :=
  { stats := statsTrivial, features := [], trained := true }

def recCredit : Record := { id := some "t1", amount := 999, direction := "CREDIT" }

def vdirEmpty : VersionDir := { blobs := [], metas := [] }

def store8 : ArtifactStore :=
  { dirs := [("v1", vdirEmpty), ("v2", vdirEmpty), ("v3", vdirEmpty),
             ("v4", vdirEmpty), ("v5", vdirEmpty), ("v6", vdirEmpty),
             ("v7", vdirEmpty), ("v8", vdirEmpty)] }

def store1 : ArtifactStore := { dirs := [("v1", vdirEmpty)] }

def dirBadMeta : VersionDir :=
  { blobs := [("m", FileData.readable "blob")], metas := [("m", FileData.unreadable)] }

def storeBadMeta : ArtifactStore := { dirs := [("v1", dirBadMeta)] }

def dirBadBlob : VersionDir := { blobs := [("m", FileData.unreadable)], metas := [] }

def storeBadBlob : ArtifactStore := { dirs := [("v1", dirBadBlob)] }

/-- 52 labeled DEBIT rows over four categories, 13 rows each. -/
def df52 : List Record :=
  (List.replicate 13 ({ category := some "A" } : Record)) ++
  (List.replicate 13 ({ category := some "B" } : Record)) ++
  (List.replicate 13 ({ category := some "C" } : Record)) ++
  (List.replicate 13 ({ category := some "D" } : Record))

/-! ## Ordering lemmas shared by the search/predict theorems -/

theorem argKeyLe_getD {xs : List ℚ} {i j : ℕ} (h : argKeyLe xs j i) :
    xs.getD j 0 ≤ xs.getD i 0 := by
  rcases h with h | ⟨e, _⟩
  · exact le_of_lt h
  · exact le_of_eq e

theorem clamp01_mono {a b : ℚ} (h : a ≤ b) :
    max 0 (min 1 a) ≤ max 0 (min 1 b) :=
  max_le_max le_rfl (min_le_min le_rfl h)

theorem clamp01_nonneg (a : ℚ) : 0 ≤ max 0 (min 1 a) := le_max_left 0 _

theorem clamp01_le_one (a : ℚ) : max 0 (min 1 a) ≤ 1 :=
  max_le zero_le_one (min_le_left 1 a)

theorem argsortDesc_take_pairwise (xs : List ℚ) (k : ℕ) :
    ((argsortDesc xs).take k).Pairwise (fun i j => argKeyLe xs j i) :=
  (argsortDesc_pairwise xs).sublist (List.take_sublist k _)

theorem argsortDesc_length (xs : List ℚ) :
    (argsortDesc xs).length = xs.length := by
  simpa using (argsortDesc_perm xs).length_eq

/-! ## Claim C9 -/

/-- C9: for every record batch, `FeatureExtractor.transform` with all
three block flags disabled raises `ValueError("No features selected")`
rather than returning an empty matrix; and with `include_text = true`
but no fitted text vectorizer the text block is silently omitted — the
result is identical to calling with `include_text = false`, whatever the
other flags are. -/
theorem C9_transform_no_features (ops : PyOps)
    (tfidf : Option (String → List ℚ)) (df : List Record) :
    transform ops tfidf df false false false =
      Except.error "No features selected" ∧
    ∀ (inum itemp : Bool),
      transform ops none df true inum itemp =
        transform ops none df false inum itemp := by
  constructor
  · rfl
  · intro inum itemp
    rfl

/-! ## Claim C2 -/

/-- C2: on a trained scorer, every record whose id is in the ignore list
or whose direction is `CREDIT` scores exactly
`{score: 0.0, label: "NORMAL"}` with the explanatory note, regardless of
its amount, and the result does not depend on the IsolationForest
decision function (no model inference). -/
theorem C2_short_circuit (d d' : List ℚ → ℚ) (ops : PyOps)
    (m : AnomalyModelState) (df : List Record) (ignoreIds : List String)
    (r : Record) (htr : m.trained = true)
    (hcond : ignoreIds.contains (r.id.getD "") = true ∨ r.direction = "CREDIT") :
    anomalyScore d ops m df ignoreIds =
      Except.ok (df.map (scoreRow d ops m.stats ignoreIds)) ∧
    scoreRow d ops m.stats ignoreIds r =
      { id := r.id.getD "", score := 0, label := "NORMAL", baseline := 0,
        residual := 0,
        notes := if ignoreIds.contains (r.id.getD "") then
            "Skipped (in ignore list)"
          else "Credit transactions not scored" } ∧
    scoreRow d ops m.stats ignoreIds r = scoreRow d' ops m.stats ignoreIds r := by
  have key : ∀ dd : List ℚ → ℚ,
      scoreRow dd ops m.stats ignoreIds r =
        { id := r.id.getD "", score := 0, label := "NORMAL", baseline := 0,
          residual := 0,
          notes := if ignoreIds.contains (r.id.getD "") then
              "Skipped (in ignore list)"
            else "Credit transactions not scored" } := by
    intro dd
    unfold scoreRow
    by_cases hig : (r.id.getD "") ∈ ignoreIds
    · simp [hig]
    · rcases hcond with hc | hc
      · exact absurd (by simpa using hc) hig
      · simp [hig, hc]
  refine ⟨?_, key d, (key d).trans (key d').symm⟩
  unfold anomalyScore
  simp [htr]

/-- C2 witness: a concrete trained state and a concrete CREDIT record of
amount 999 short-circuit to score 0 / `NORMAL` independently of two
different decision functions. -/
theorem C2_short_circuit_witness :
    (stTrained.trained = true ∧
      (["skip1"].contains (recCredit.id.getD "") = true ∨
        recCredit.direction = "CREDIT")) ∧
    (anomalyScore (fun _ => 0) ratOps stTrained [recCredit] ["skip1"] =
      Except.ok ([recCredit].map
        (scoreRow (fun _ => 0) ratOps stTrained.stats ["skip1"])) ∧
    scoreRow (fun _ => 0) ratOps stTrained.stats ["skip1"] recCredit =
      { id := recCredit.id.getD "", score := 0, label := "NORMAL",
        baseline := 0, residual := 0,
        notes := if ["skip1"].contains (recCredit.id.getD "") then
            "Skipped (in ignore list)"
          else "Credit transactions not scored" } ∧
    scoreRow (fun _ => 0) ratOps stTrained.stats ["skip1"] recCredit =
      scoreRow (fun _ => 1) ratOps stTrained.stats ["skip1"] recCredit) :=
  ⟨⟨rfl, Or.inr rfl⟩,
    C2_short_circuit (fun _ => 0) (fun _ => 1) ratOps stTrained [recCredit]
      ["skip1"] recCredit rfl (Or.inr rfl)⟩

/-! ## Claim C4 -/

/-- C4 (amended): `predict` returns `top` ordered by non-increasing
probability, but ties between equal-probability classes are broken by
*descending* class index (`np.argsort(proba)[::-1]` reverses a stable
ascending argsort), not ascending; `chosen` and `confidence` equal the
category and probability of the first element of `top`. -/
theorem C4_predict_order (proba : List ℚ) (classes : List String) (topK : ℕ)
    (hk : 1 ≤ topK) (hp : proba ≠ []) :
    (predictRow proba classes topK).top.Pairwise (fun a b => b.prob ≤ a.prob) ∧
    ((argsortDesc proba).take topK).Pairwise
      (fun i j => proba.getD j 0 < proba.getD i 0 ∨
        (proba.getD i 0 = proba.getD j 0 ∧ j ≤ i)) ∧
    (predictRow proba classes topK).top ≠ [] ∧
    (predictRow proba classes topK).chosen =
      ((predictRow proba classes topK).top.headD ⟨"", 0⟩).category ∧
    (predictRow proba classes topK).confidence =
      ((predictRow proba classes topK).top.headD ⟨"", 0⟩).prob := by
  have htop : (predictRow proba classes topK).top =
      ((argsortDesc proba).take topK).map
        (fun i => ({ category := classes.getD i "", prob := proba.getD i 0 } : TopPred)) := rfl
  have hne : (argsortDesc proba).take topK ≠ [] := by
    intro h
    rcases List.take_eq_nil_iff.mp h with h' | h'
    · omega
    · have hlen := argsortDesc_length proba
      rw [h'] at hlen
      exact hp (List.eq_nil_of_length_eq_zero hlen.symm)
  refine ⟨?_, ?_, ?_, ?_, ?_⟩
  · rw [htop, List.pairwise_map]
    exact (argsortDesc_take_pairwise proba topK).imp
      (fun h => argKeyLe_getD h)
  · exact (argsortDesc_take_pairwise proba topK).imp
      (fun h => h.imp id (fun he => ⟨he.1.symm, he.2⟩))
  · rw [htop]
    intro h
    exact hne (List.map_eq_nil_iff.mp h)
  · match hidx : (argsortDesc proba).take topK with
    | [] => exact absurd hidx hne
    | i :: rest => simp [predictRow, hidx]
  · match hidx : (argsortDesc proba).take topK with
    | [] => exact absurd hidx hne
    | i :: rest => simp [predictRow, hidx]

/-- C4 witness: with probabilities `[1/2, 1/4, 1/4]`, three classes and
`top_k = 3`, the hypotheses hold and the ordering properties follow. -/
theorem C4_predict_order_witness :
    ((1 ≤ 3) ∧ ([1/2, 1/4, 1/4] : List ℚ) ≠ []) ∧
    ((predictRow [1/2, 1/4, 1/4] ["A", "B", "C"] 3).top.Pairwise
        (fun a b => b.prob ≤ a.prob) ∧
      ((argsortDesc [1/2, 1/4, 1/4]).take 3).Pairwise
        (fun i j => ([1/2, 1/4, 1/4] : List ℚ).getD j 0 <
            ([1/2, 1/4, 1/4] : List ℚ).getD i 0 ∨
          (([1/2, 1/4, 1/4] : List ℚ).getD i 0 =
              ([1/2, 1/4, 1/4] : List ℚ).getD j 0 ∧ j ≤ i)) ∧
      (predictRow [1/2, 1/4, 1/4] ["A", "B", "C"] 3).top ≠ [] ∧
      (predictRow [1/2, 1/4, 1/4] ["A", "B", "C"] 3).chosen =
        ((predictRow [1/2, 1/4, 1/4] ["A", "B", "C"] 3).top.headD ⟨"", 0⟩).category ∧
      (predictRow [1/2, 1/4, 1/4] ["A", "B", "C"] 3).confidence =
        ((predictRow [1/2, 1/4, 1/4] ["A", "B", "C"] 3).top.headD ⟨"", 0⟩).prob) :=
  ⟨⟨by decide, by decide⟩,
    C4_predict_order [1/2, 1/4, 1/4] ["A", "B", "C"] 3 (by decide) (by decide)⟩

/-- C4 counterexample: with the tied probability row `[1/2, 1/2]` and
classes `["A", "B"]` (class indices 0 and 1), `predict` lists class
index 1 (`"B"`) before class index 0 (`"A"`): equal-probability ties are
broken by descending class index, refuting the claimed ascending
tie-break. -/
theorem C4_predict_order_counterexample :
    predictRow [1/2, 1/2] ["A", "B"] 3 =
      { top := [{ category := "B", prob := 1/2 }, { category := "A", prob := 1/2 }],
        chosen := "B", confidence := 1/2 } := by decide

/-! ## Claim C1 -/

/-- Unfolding equation for `search` (definitional). -/
theorem search_eq (sq : ℚ → ℚ) (embed : String → List ℚ)
    (st : MerchantState) (query : String) (hm hd : Option String) (topK : ℕ) :
    search sq embed st query hm hd topK =
      if st.canonicalMerchants = [] || st.embeddings.isNone then []
      else
        ((argsortDesc (searchSims sq embed st query hm hd)).take topK).map
          (fun i =>
            { canonical := st.canonicalMerchants.getD i ""
              score := max 0 (min 1 ((searchSims sq embed st query hm hd).getD i 0))
              matchedTokens := (pySplitWs (combineQuery query hm hd)).dedup.filter
                (fun t => (pySplitWs
                  (normalize_merchant_text (st.canonicalMerchants.getD i ""))).contains t) }) :=
  rfl

/-- C1 (amended): on every built index, every `search` result has all
scores clamped into `[0,1]` and is ordered by non-increasing score; the
retrieval order breaks ties of the underlying similarity by *descending*
index in the canonical list (the numpy fallback reverses a stable
ascending argsort), not ascending, and candidates whose distinct
similarities clamp to the same score keep similarity order rather than
index order. -/
theorem C1_search_scores_sorted (sq : ℚ → ℚ) (embed : String → List ℚ)
    (merchants : List String) (query : String) (hm hd : Option String)
    (topK : ℕ) :
    (∀ c ∈ search sq embed (build_index embed merchants) query hm hd topK,
        0 ≤ c.score ∧ c.score ≤ 1) ∧
    (search sq embed (build_index embed merchants) query hm hd topK).Pairwise
      (fun a b => b.score ≤ a.score) ∧
    ((argsortDesc (searchSims sq embed (build_index embed merchants) query hm hd)).take
        topK).Pairwise
      (fun i j =>
        (searchSims sq embed (build_index embed merchants) query hm hd).getD j 0 <
            (searchSims sq embed (build_index embed merchants) query hm hd).getD i 0 ∨
          ((searchSims sq embed (build_index embed merchants) query hm hd).getD i 0 =
              (searchSims sq embed (build_index embed merchants) query hm hd).getD j 0 ∧
            j ≤ i)) := by
  rw [search_eq]
  refine ⟨?_, ?_, ?_⟩
  · split
    · intro c hc
      simp at hc
    · intro c hc
      rw [List.mem_map] at hc
      obtain ⟨i, _, rfl⟩ := hc
      exact ⟨clamp01_nonneg _, clamp01_le_one _⟩
  · split
    · exact List.Pairwise.nil
    · rw [List.pairwise_map]
      exact (argsortDesc_take_pairwise _ topK).imp
        (fun h => clamp01_mono (argKeyLe_getD h))
  · exact (argsortDesc_take_pairwise _ topK).imp
      (fun h => h.imp id (fun he => ⟨he.1.symm, he.2⟩))

/-- C1 counterexample: the built index over `["aa", "bb"]` with an
embedding that maps both names to the same unit vector.  The query
`"aa"` gives both candidates the same similarity and the same clamped
score 1, yet the result lists the index-1 merchant `"bb"` before the
index-0 merchant `"aa"`: the equal-score tie is broken by descending
insertion order, refuting the claimed ascending tie-break. -/
theorem C1_search_counterexample :
    idxAB.canonicalMerchants = ["aa", "bb"] ∧
    (search ratSqrt embedConst idxAB "aa" none none 5).map
      (fun c => (c.canonical, c.score)) = [("bb", 1), ("aa", 1)] := by decide

/-! ## Claim C5 -/

/-- C5 (amended): when the best candidate's score is below `min_score`,
`normalise` reports the best candidate's score as `score` and at most 3
candidates, and returns as `canonical` the normalized raw string *when
that normalization is non-empty* — when it is empty (`or raw`), the
original raw string is returned instead (`normalizedRawOrRaw`). -/
theorem C5_below_threshold (ops : PyOps) (sq : ℚ → ℚ)
    (embed : String → List ℚ) (st : MerchantState) (raw : String)
    (hm hd : Option String) (minScore : ℚ) (best : MerchantCandidate)
    (rest : List MerchantCandidate)
    (hs : search sq embed st raw hm hd 5 = best :: rest)
    (hlt : best.score < minScore) :
    normalise ops sq embed st raw hm hd minScore =
      { canonical := normalizedRawOrRaw raw
        score := best.score
        candidates := ((best :: rest).take 3).map (fun c => (c.canonical, c.score))
        matchedTokens := best.matchedTokens
        notes := "Best match below threshold (" ++ ops.fmt2 best.score ++
          " < " ++ ops.fmt2 minScore ++ ")" } ∧
    (normalise ops sq embed st raw hm hd minScore).candidates.length ≤ 3 := by
  have heq : normalise ops sq embed st raw hm hd minScore =
      { canonical := normalizedRawOrRaw raw
        score := best.score
        candidates := ((best :: rest).take 3).map (fun c => (c.canonical, c.score))
        matchedTokens := best.matchedTokens
        notes := "Best match below threshold (" ++ ops.fmt2 best.score ++
          " < " ++ ops.fmt2 minScore ++ ")" } := by
    unfold normalise
    rw [hs]
    dsimp only
    rw [if_pos hlt]
  refine ⟨heq, ?_⟩
  rw [heq]
  simp only [List.length_map]
  exact List.length_take_le 3 _

/-- C5 witness: one canonical merchant `"Tesco"`, an embedding that
separates it from the query `"zzz"`, best score 0 below the default
threshold 3/10; `normalise` reports score 0, at most 3 candidates and
the normalized raw string as canonical. -/
theorem C5_below_threshold_witness :
    (search ratSqrt embedTesco idxTesco "zzz" none none 5 =
        [{ canonical := "Tesco", score := 0, matchedTokens := [] }] ∧
      ({ canonical := "Tesco", score := 0, matchedTokens := [] } :
        MerchantCandidate).score < 3/10) ∧
    (normalise ratOps ratSqrt embedTesco idxTesco "zzz" none none (3/10) =
      { canonical := normalizedRawOrRaw "zzz"
        score := ({ canonical := "Tesco", score := 0, matchedTokens := [] } :
          MerchantCandidate).score
        candidates := (([{ canonical := "Tesco", score := 0, matchedTokens := [] }] :
          List MerchantCandidate).take 3).map (fun c => (c.canonical, c.score))
        matchedTokens := ({ canonical := "Tesco", score := 0, matchedTokens := [] } :
          MerchantCandidate).matchedTokens
        notes := "Best match below threshold (" ++
          ratOps.fmt2 ({ canonical := "Tesco", score := 0, matchedTokens := [] } :
            MerchantCandidate).score ++ " < " ++ ratOps.fmt2 (3/10) ++ ")" } ∧
    (normalise ratOps ratSqrt embedTesco idxTesco "zzz" none none
        (3/10)).candidates.length ≤ 3) :=
  ⟨⟨by decide, by decide⟩,
    C5_below_threshold ratOps ratSqrt embedTesco idxTesco "zzz" none none
      (3/10) { canonical := "Tesco", score := 0, matchedTokens := [] } []
      (by decide) (by decide)⟩

/-- C5 counterexample: the raw string `"123"` normalizes to the empty
string; with a built index and a best score 0 below the default 0.3
threshold, `normalise` returns `"123"` (the original raw string), not
the normalized raw string `""` that the claim states. -/
theorem C5_below_threshold_counterexample :
    normalize_merchant_text "123" = "" ∧
    (search ratSqrt embedTesco idxTesco "123" none none 5).map
      (fun c => c.score) = [0] ∧
    (normalise ratOps ratSqrt embedTesco idxTesco "123" none none
      (3/10)).canonical = "123" ∧
    (normalise ratOps ratSqrt embedTesco idxTesco "123" none none
      (3/10)).canonical ≠ normalize_merchant_text "123" := by decide

/-! ## Claim C10 -/

/-- C10 (amended): for a raw string whose normalized form is empty, both
the no-index branch and the below-threshold branch of `normalise` return
the original raw string unchanged as `canonical`; it is non-empty
whenever the raw string itself is non-empty (for `raw = ""` the returned
canonical is `""`, see the counterexample). -/
theorem C10_empty_normalization (ops : PyOps) (sq : ℚ → ℚ)
    (embed : String → List ℚ) (st : MerchantState) (raw : String)
    (hm hd : Option String) (minScore : ℚ)
    (h0 : normalize_merchant_text raw = "") (h1 : raw ≠ "") :
    (search sq embed st raw hm hd 5 = [] →
      (normalise ops sq embed st raw hm hd minScore).canonical = raw ∧
      (normalise ops sq embed st raw hm hd minScore).canonical ≠ "") ∧
    (∀ (best : MerchantCandidate) (rest : List MerchantCandidate),
      search sq embed st raw hm hd 5 = best :: rest →
      best.score < minScore →
      (normalise ops sq embed st raw hm hd minScore).canonical = raw ∧
      (normalise ops sq embed st raw hm hd minScore).canonical ≠ "") := by
  have hraw : normalizedRawOrRaw raw = raw := by
    unfold normalizedRawOrRaw
    rw [if_pos h0]
  constructor
  · intro hs
    have : (normalise ops sq embed st raw hm hd minScore).canonical =
        normalizedRawOrRaw raw := by
      unfold normalise
      rw [hs]
    rw [this, hraw]
    exact ⟨rfl, h1⟩
  · intro best rest hs hlt
    have : (normalise ops sq embed st raw hm hd minScore).canonical =
        normalizedRawOrRaw raw := by
      unfold normalise
      rw [hs]
      dsimp only
      rw [if_pos hlt]
    rw [this, hraw]
    exact ⟨rfl, h1⟩

/-- C10 witness: `"123"` normalizes to `""` and is non-empty; with an
empty index the search result is empty and the conclusion applies, so
`normalise` returns `"123"` itself in both claimed branches. -/
theorem C10_empty_normalization_witness :
    (normalize_merchant_text "123" = "" ∧ "123" ≠ "") ∧
    ((search ratSqrt embedConst emptyIdx "123" none none 5 = [] →
      (normalise ratOps ratSqrt embedConst emptyIdx "123" none none
        (3/10)).canonical = "123" ∧
      (normalise ratOps ratSqrt embedConst emptyIdx "123" none none
        (3/10)).canonical ≠ "") ∧
    (∀ (best : MerchantCandidate) (rest : List MerchantCandidate),
      search ratSqrt embedConst emptyIdx "123" none none 5 = best :: rest →
      best.score < 3/10 →
      (normalise ratOps ratSqrt embedConst emptyIdx "123" none none
        (3/10)).canonical = "123" ∧
      (normalise ratOps ratSqrt embedConst emptyIdx "123" none none
        (3/10)).canonical ≠ "")) :=
  ⟨⟨by decide, by decide⟩,
    C10_empty_normalization ratOps ratSqrt embedConst emptyIdx "123" none none
      (3/10) (by decide) (by decide)⟩

/-- C10 counterexample: for `raw = ""` (whose normalized form is also
empty) the no-index branch returns the empty string as `canonical`,
refuting the "never the empty string" part of the claim as stated. -/
theorem C10_empty_normalization_counterexample :
    normalize_merchant_text "" = "" ∧
    (normalise ratOps ratSqrt embedConst emptyIdx "" none none
      (3/10)).canonical = "" := by decide

/-! ## Claim C3 -/

theorem groupStatsTable_mem {sq : ℚ → ℚ} {f : Record → Option String}
    {df : List Record} {k : String} {e : StatEntry}
    (h : (k, e) ∈ groupStatsTable sq f df) :
    3 ≤ (groupOf f df k).length ∧
    e = mkStatEntry sq ((groupOf f df k).map fun r => r.amount)
      (groupOf f df k).length := by
  unfold groupStatsTable at h
  rw [List.mem_filterMap] at h
  obtain ⟨a, _, hfa⟩ := h
  dsimp only at hfa
  split at hfa
  · rw [Option.some.injEq, Prod.mk.injEq] at hfa
    obtain ⟨rfl, rfl⟩ := hfa
    exact ⟨by assumption, rfl⟩
  · exact absurd hfa (by simp)

/-- C3 (amended): on every successful training input, every baseline
entry stores as standard deviation the *population standard deviation
when it is nonzero, and 1.0 exactly when it is zero* (`np.std(...) or
1.0` replaces only a zero, it is not a floor at 1.0 — the stored value
can be strictly between 0 and 1); per-category and per-merchant entries
exist only for groups with at least 3 observations. -/
theorem C3_stats (ops : PyOps) (df : List Record)
    (h : 10 ≤ (debitRows df).length) :
    anomalyTrain ops df = Except.ok
      { stats := computeStatistics ops.sqrt (debitRows df)
        features := (debitRows df).map
          (prepare_features_row ops (computeStatistics ops.sqrt (debitRows df)))
        trained := true } ∧
    (computeStatistics ops.sqrt (debitRows df)).globalStats.std =
      orOne (popStd ops.sqrt ((debitRows df).map fun r => r.amount)) ∧
    (∀ s : ℚ, orOne s = if s = 0 then 1 else s) ∧
    (∀ c e, (c, e) ∈ (computeStatistics ops.sqrt (debitRows df)).categoryStats →
      3 ≤ (groupOf (fun r => r.category) (debitRows df) c).length ∧
      e.count = (groupOf (fun r => r.category) (debitRows df) c).length ∧
      e.std = orOne (popStd ops.sqrt
        ((groupOf (fun r => r.category) (debitRows df) c).map fun r => r.amount))) ∧
    (∀ m e, (m, e) ∈ (computeStatistics ops.sqrt (debitRows df)).merchantStats →
      3 ≤ (groupOf (fun r => r.merchant) (debitRows df) m).length ∧
      e.count = (groupOf (fun r => r.merchant) (debitRows df) m).length ∧
      e.std = orOne (popStd ops.sqrt
        ((groupOf (fun r => r.merchant) (debitRows df) m).map fun r => r.amount))) := by
  refine ⟨?_, rfl, fun _ => rfl, ?_, ?_⟩
  · unfold anomalyTrain
    rw [if_neg (not_lt.mpr h)]
  · intro c e hm
    obtain ⟨h3, rfl⟩ := groupStatsTable_mem hm
    exact ⟨h3, rfl, rfl⟩
  · intro m e hm
    obtain ⟨h3, rfl⟩ := groupStatsTable_mem hm
    exact ⟨h3, rfl, rfl⟩

/-- C3 counterexample: ten DEBIT rows with amounts nine 0s and one 1.
The population variance is 9/100, whose true square root is 3/10 (as the
conjuncts verify), so the stored global standard deviation is 3/10,
which is not at least 1.0 — `np.std(...) or 1.0` is not a floor. -/
theorem C3_stats_counterexample :
    popVar ((debitRows df10).map fun r => r.amount) = 9/100 ∧
    ratSqrt (9/100) = 3/10 ∧
    ((3 : ℚ)/10) * (3/10) = 9/100 ∧
    anomalyTrainGlobalStd ratOps df10 = some (3/10) ∧
    ¬ ((1 : ℚ) ≤ 3/10) := by decide

/-- C3 witness: ten DEBIT rows containing one category group of three
constant amounts (population standard deviation 0, stored as 1.0); the
training precondition holds and the amended statement applies. -/
theorem C3_stats_witness :
    (10 ≤ (debitRows dfConstCat).length) ∧
    (anomalyTrain ratOps dfConstCat = Except.ok
      { stats := computeStatistics ratOps.sqrt (debitRows dfConstCat)
        features := (debitRows dfConstCat).map
          (prepare_features_row ratOps
            (computeStatistics ratOps.sqrt (debitRows dfConstCat)))
        trained := true } ∧
    (computeStatistics ratOps.sqrt (debitRows dfConstCat)).globalStats.std =
      orOne (popStd ratOps.sqrt ((debitRows dfConstCat).map fun r => r.amount)) ∧
    (∀ s : ℚ, orOne s = if s = 0 then 1 else s) ∧
    (∀ c e, (c, e) ∈
        (computeStatistics ratOps.sqrt (debitRows dfConstCat)).categoryStats →
      3 ≤ (groupOf (fun r => r.category) (debitRows dfConstCat) c).length ∧
      e.count = (groupOf (fun r => r.category) (debitRows dfConstCat) c).length ∧
      e.std = orOne (popStd ratOps.sqrt
        ((groupOf (fun r => r.category) (debitRows dfConstCat) c).map
          fun r => r.amount))) ∧
    (∀ m e, (m, e) ∈
        (computeStatistics ratOps.sqrt (debitRows dfConstCat)).merchantStats →
      3 ≤ (groupOf (fun r => r.merchant) (debitRows dfConstCat) m).length ∧
      e.count = (groupOf (fun r => r.merchant) (debitRows dfConstCat) m).length ∧
      e.std = orOne (popStd ratOps.sqrt
        ((groupOf (fun r => r.merchant) (debitRows dfConstCat) m).map
          fun r => r.amount)))) :=
  ⟨by decide, C3_stats ratOps dfConstCat (by decide)⟩

/-! ## Claim C8 -/

theorem le_listMin_iff {k : ℕ} :
    ∀ {l : List ℕ}, l ≠ [] → (k ≤ listMin l ↔ ∀ x ∈ l, k ≤ x)
  | [], h => absurd rfl h
  | [a], _ => by simp [listMin]
  | a :: b :: rest, _ => by
    have ih := le_listMin_iff (k := k) (l := b :: rest) (by simp)
    simp only [listMin, Nat.le_min, ih, List.forall_mem_cons]

theorem labelList_ne_nil {df : List Record} (h : labeledRows df ≠ []) :
    labelList df ≠ [] := by
  unfold labelList
  cases hr : labeledRows df with
  | nil => exact absurd hr h
  | cons r t =>
    have hmem : r ∈ labeledRows df := by rw [hr]; exact List.mem_cons_self r t
    have hsome : r.category.isSome := by
      have := List.mem_filter.mp hmem
      simpa using this.2
    obtain ⟨c, hc⟩ := Option.isSome_iff_exists.mp hsome
    rw [List.filterMap_cons, hc]
    simp

theorem classCounts_ne_nil {df : List Record} (h : labeledRows df ≠ []) :
    classCounts df ≠ [] := by
  unfold classCounts classList
  have := labelList_ne_nil h
  simp only [ne_eq, List.map_eq_nil_iff, List.dedup_eq_nil]
  exact this

theorem minClassCount_iff {df : List Record} (h : labeledRows df ≠ []) :
    (5 ≤ minClassCount df ↔ ∀ c ∈ labelList df, 5 ≤ (labelList df).count c) := by
  unfold minClassCount
  rw [le_listMin_iff (classCounts_ne_nil h)]
  unfold classCounts classList
  constructor
  · intro hall c hc
    exact hall _ (List.mem_map_of_mem _ (List.mem_dedup.mpr hc))
  · intro hall x hx
    rw [List.mem_map] at hx
    obtain ⟨c, hc, rfl⟩ := hx
    exact hall c (List.mem_dedup.mp hc)

/-- C8: on every successful training input (with the default
`use_calibration = True`), the calibration path is taken if and only if
the labeled corpus has at least 50 rows and every class has at least 5
examples, and in that case the cross-validation fold count is
`min(5, minimum class count)`; otherwise the raw classifier's
uncalibrated probabilities are used (`cvFolds = none`). -/
theorem C8_calibration (df : List Record)
    (h : 10 ≤ (labeledRows df).length) :
    (categoryTrainCalibrated df true = some true ↔
      (50 ≤ (labeledRows df).length ∧
        ∀ c ∈ labelList df, 5 ≤ (labelList df).count c)) ∧
    (∀ info, categoryTrain df true = Except.ok info →
      (info.calibrated = true → info.cvFolds = some (min 5 (minClassCount df))) ∧
      (info.calibrated = false → info.cvFolds = none)) := by
  have hne : labeledRows df ≠ [] := by
    intro h'
    rw [h'] at h
    simp at h
  have hok : categoryTrain df true = Except.ok
      { nSamples := (labeledRows df).length
        nClasses := (classList df).length
        minCount := minClassCount df
        calibrated := true && decide (50 ≤ (labeledRows df).length) &&
          decide (5 ≤ minClassCount df)
        cvFolds := if true && decide (50 ≤ (labeledRows df).length) &&
            decide (5 ≤ minClassCount df) then
            some (min 5 (minClassCount df))
          else none } := by
    unfold categoryTrain
    rw [if_neg (not_lt.mpr h)]
  constructor
  · unfold categoryTrainCalibrated
    rw [hok]
    simp only [Option.some.injEq, Bool.true_and, Bool.and_eq_true,
      decide_eq_true_eq]
    rw [minClassCount_iff hne]
  · intro info hinfo
    rw [hok] at hinfo
    obtain rfl := (Except.ok.inj hinfo).symm
    constructor
    · intro hcal
      simp only at hcal ⊢
      rw [hcal]
      simp
    · intro hcal
      simp only at hcal ⊢
      rw [hcal]
      simp

/-- C8 witness: 52 labeled rows over four classes of 13 each satisfy the
precondition; the calibration criterion is met and the flag is indeed
reported true. -/
theorem C8_calibration_witness :
    (10 ≤ (labeledRows df52).length) ∧
    ((categoryTrainCalibrated df52 true = some true ↔
      (50 ≤ (labeledRows df52).length ∧
        ∀ c ∈ labelList df52, 5 ≤ (labelList df52).count c)) ∧
    (∀ info, categoryTrain df52 true = Except.ok info →
      (info.calibrated = true →
        info.cvFolds = some (min 5 (minClassCount df52))) ∧
      (info.calibrated = false → info.cvFolds = none))) ∧
    categoryTrainCalibrated df52 true = some true :=
  ⟨by decide, C8_calibration df52 (by decide), by decide⟩

/-! ## Claim C6 -/

/-- C6 (amended): `load_artifact` returns an absent result `(None, None)`
rather than raising when the version directory is missing, when the blob
is missing, or when the blob is unreadable (`joblib.load` raises inside
the `try`); but an unreadable metadata sidecar next to a readable blob
*does* propagate the exception, because the `json.load` of the sidecar
happens outside the `try` block. -/
theorem C6_load_artifact (st : ArtifactStore) (name : String)
    (v : Option String) :
    (get_version_dir st v = none →
      load_artifact st name v = Except.ok (none, none)) ∧
    (∀ dir, get_version_dir st v = some dir →
      (dir.blobs.lookup name = none →
        load_artifact st name v = Except.ok (none, none)) ∧
      (dir.blobs.lookup name = some FileData.unreadable →
        load_artifact st name v = Except.ok (none, none)) ∧
      (∀ obj, dir.blobs.lookup name = some (FileData.readable obj) →
        (dir.metas.lookup name = none →
          load_artifact st name v = Except.ok (some obj, none)) ∧
        (∀ mt, dir.metas.lookup name = some (FileData.readable mt) →
          load_artifact st name v = Except.ok (some obj, some mt)) ∧
        (dir.metas.lookup name = some FileData.unreadable →
          load_artifact st name v = Except.error
            "json.load raised while reading the metadata sidecar"))) := by
  constructor
  · intro h0
    unfold load_artifact
    rw [h0]
  · intro dir hdir
    refine ⟨?_, ?_, ?_⟩
    · intro hb
      unfold load_artifact
      rw [hdir]
      dsimp only
      rw [hb]
    · intro hb
      unfold load_artifact
      rw [hdir]
      dsimp only
      rw [hb]
    · intro obj hb
      refine ⟨?_, ?_, ?_⟩
      · intro hm
        unfold load_artifact
        rw [hdir]
        dsimp only
        rw [hb]
        dsimp only
        rw [hm]
      · intro mt hm
        unfold load_artifact
        rw [hdir]
        dsimp only
        rw [hb]
        dsimp only
        rw [hm]
      · intro hm
        unfold load_artifact
        rw [hdir]
        dsimp only
        rw [hb]
        dsimp only
        rw [hm]

/-- C6 witness: a store whose only version holds an unreadable blob for
`"m"`; `load_artifact` returns the absent pair instead of raising. -/
theorem C6_load_artifact_witness :
    load_artifact storeBadBlob "m" none = Except.ok (none, none) :=
  (((C6_load_artifact storeBadBlob "m" none).2 dirBadBlob (by decide)).2.1)
    (by decide)

/-- C6 counterexample: a readable blob whose metadata sidecar is
unreadable makes `load_artifact` propagate the `json.load` exception
instead of returning an absent result, refuting "never raises ... for
every failure mode ... including an unreadable metadata sidecar". -/
theorem C6_load_artifact_counterexample :
    load_artifact storeBadMeta "m" none =
      Except.error "json.load raised while reading the metadata sidecar" := by
  decide

/-! ## Claim C7 -/

theorem map_fst_filter_fst {α β : Type} (l : List (α × β)) (p : α → Bool) :
    (l.filter fun d => p d.fst).map Prod.fst = (l.map Prod.fst).filter p := by
  induction l with
  | nil => rfl
  | cons a t ih =>
    cases hp : p a.fst <;> simp [List.filter_cons, hp, ih]

theorem filter_not_contains_take :
    ∀ (l : List String), l.Nodup → ∀ m : ℕ,
      l.filter (fun x => !((l.take m).contains x)) = l.drop m
  | [], _, _ => by simp
  | a :: t, h, 0 => by
    rw [List.take_zero, List.drop_zero]
    apply List.filter_eq_self.mpr
    intro x _
    simp
  | a :: t, h, m + 1 => by
    have hat : a ∉ t := (List.nodup_cons.mp h).1
    have ht : t.Nodup := (List.nodup_cons.mp h).2
    simp only [List.take_succ_cons, List.drop_succ_cons, List.filter_cons]
    have ha : (!((a :: t.take m).contains a)) = false := by simp
    rw [ha]
    simp only [Bool.false_eq_true, if_false]
    have hcongr : t.filter (fun x => !((a :: t.take m).contains x)) =
        t.filter (fun x => !((t.take m).contains x)) := by
      apply List.filter_congr
      intro x hx
      have hxa : x ≠ a := fun he => hat (he ▸ hx)
      simp [hxa]
    rw [hcongr, filter_not_contains_take t ht m]

theorem insertionSort_filter_eq (p : String → Bool) (base : List String) :
    List.insertionSort pyStrLe (base.filter p) =
      (List.insertionSort pyStrLe base).filter p :=
  List.eq_of_perm_of_sorted (r := pyStrLe)
    ((List.perm_insertionSort _ _).trans
      ((List.perm_insertionSort pyStrLe base).filter p).symm)
    (List.sorted_insertionSort _ _)
    ((List.sorted_insertionSort _ _).filter p)

/-- C7 (amended): for `keep ≥ 1` (and distinct version names),
`cleanup_old_versions` removes exactly the `n - keep` lexicographically
oldest versions when `n > keep` — the survivors are precisely the `keep`
newest — and removes nothing (returning 0) when `n ≤ keep`.  For
`keep = 0` the claim fails: the Python slice `versions[:-0]` is empty,
so nothing is removed (see the counterexample). -/
theorem C7_cleanup (st : ArtifactStore) (keep : ℕ) (hk : 1 ≤ keep)
    (hnd : (list_versions st).Nodup) :
    ((list_versions st).length ≤ keep →
      cleanup_old_versions st keep = (0, st)) ∧
    (keep < (list_versions st).length →
      (cleanup_old_versions st keep).1 = (list_versions st).length - keep ∧
      list_versions (cleanup_old_versions st keep).2 =
        (list_versions st).drop ((list_versions st).length - keep)) := by
  constructor
  · intro hle
    unfold cleanup_old_versions
    rw [if_pos hle]
  · intro hlt
    have hif : ¬((list_versions st).length ≤ keep) := not_le.mpr hlt
    have hkz : ¬(keep = 0) := by omega
    have hremove : pyDropLast keep (list_versions st) =
        (list_versions st).take ((list_versions st).length - keep) := by
      unfold pyDropLast
      rw [if_neg hkz]
    constructor
    · show (cleanup_old_versions st keep).1 = _
      unfold cleanup_old_versions
      rw [if_neg hif]
      dsimp only
      rw [hremove, List.length_take]
      omega
    · show list_versions (cleanup_old_versions st keep).2 = _
      unfold cleanup_old_versions
      rw [if_neg hif]
      dsimp only
      rw [hremove]
      set R := (list_versions st).take ((list_versions st).length - keep) with hR
      unfold list_versions
      dsimp only
      rw [map_fst_filter_fst st.dirs (fun n => !(R.contains n))]
      rw [List.filter_comm]
      rw [insertionSort_filter_eq]
      have hfold : List.insertionSort pyStrLe
          ((st.dirs.map Prod.fst).filter fun n => pyStartsWith n "v") =
          list_versions st := rfl
      rw [hfold, hR]
      exact filter_not_contains_take (list_versions st) hnd _

/-- C7 witness: with 8 versions and `keep = 5`, the hypotheses hold, the
amended statement applies, and concretely exactly the 3 oldest versions
`v1 v2 v3` are removed while `v4 ... v8` survive. -/
theorem C7_cleanup_witness :
    (1 ≤ 5 ∧ (list_versions store8).Nodup) ∧
    (((list_versions store8).length ≤ 5 →
      cleanup_old_versions store8 5 = (0, store8)) ∧
    (5 < (list_versions store8).length →
      (cleanup_old_versions store8 5).1 = (list_versions store8).length - 5 ∧
      list_versions (cleanup_old_versions store8 5).2 =
        (list_versions store8).drop ((list_versions store8).length - 5))) ∧
    (cleanup_old_versions store8 5).1 = 3 ∧
    list_versions (cleanup_old_versions store8 5).2 =
      ["v4", "v5", "v6", "v7", "v8"] :=
  ⟨⟨by decide, by decide⟩, C7_cleanup store8 5 (by decide) (by decide),
    by decide, by decide⟩

/-- C7 counterexample: one version and `keep = 0`.  The claim as stated
(`n > keep` removes `n - keep` oldest) demands one removal, but
`versions[:-0]` is the empty slice: nothing is removed and 0 is
returned. -/
theorem C7_cleanup_counterexample :
    (list_versions store1).length = 1 ∧
    (0 : ℕ) < 1 ∧
    cleanup_old_versions store1 0 = (0, store1) ∧
    (cleanup_old_versions store1 0).1 ≠ (list_versions store1).length - 0 := by
  decide

end FinSmart
